import Mathlib

/-!
Shallow embedding of the task-submission / completion-wait core of
icon_image_lib/utility.py: create_image_task, poll_task_status,
get_task_status, process_queued_item, wait_for_completion and process_row,
together with theorems about their behaviour.

Modelling conventions.
Time is discrete (Nat); the only operations that advance time are the two
sleeps of the source (the 5-unit inter-poll sleep of poll_database and the
POLL_INTERVAL sleep of poll_task_status).  The database, the connection
pool and the remote HTTP service are external collaborators, modelled as
functions of time supplied as parameters.  Machine effects of interest
(pool acquire and release, the SELECT read, the INSERT, queue puts and
takes, sleeps) are recorded in an event trace so frame properties can be
stated.  Fallible steps return Except or a dedicated outcome constructor.

Two module-level names referenced by utility.py are unbound in the module
as shipped: the import of PoolError (line 17) and the creation of
global_connection_pool (lines 18 to 26) are commented out.  Evaluating the
clause except PoolError, or the expression global_connection_pool, raises
NameError at run time.  The embedding keeps both name bindings as explicit
Bool parameters (false in the module as shipped) so that both the literal
behaviour and the behaviour the handler text describes can be stated.
-/

namespace DistroImage

/-- Values as Python sees them in the DB row fields and JSON fields used by
this core: None, integers and strings, with Python truthiness. -/
inductive PyVal where
  | none
  | int (n : Int)
  | str (s : String)
deriving DecidableEq, Repr

/-- Python truthiness of a value: None, 0 and the empty string are falsy. -/
def PyVal.truthy : PyVal → Bool
  | .none => false
  | .int n => n != 0
  | .str s => s != ""

/-- Python str() of a value, as used to build dataset_split. -/
def pyStr : PyVal → String
  | .none => "None"
  | .int n => toString n
  | .str s => s

/-- A row of utb_ImageScraperResult as read back by get_task_status:
the four selected columns.  Each is nullable, hence PyVal. -/
structure TrackRow where
  completeTime : PyVal
  entryId : PyVal
  imageUrl : PyVal
  imageDesc : PyVal
deriving DecidableEq, Repr

/-- Outcome of pool.get_connection() at a given time: success, or a raised
PoolError carrying its message. -/
inductive ConnOutcome where
  | ok
  | poolErr (msg : String)
deriving DecidableEq, Repr

/-- The datastore as seen through the SELECT of get_task_status: at time t,
for a given ResultID, either no row or the current row.  The row is written
by an external worker, so it is a function of time. -/
abbrev DBFun := Nat → Nat → Option TrackRow

/-- Behaviour of a connection-pool handle over time. -/
abbrev PoolH := Nat → ConnOutcome

/-- An item of the overflow queue: the pair (result_id, db_pool) that
wait_for_completion puts when the pool is exhausted. -/
abbrev QItem := Nat × PoolH

/-- Observable events on the shared resources: pool acquire and release,
the SELECT read of a ResultID, the INSERT of a tracking row, sleeps, and
overflow-queue puts and takes. -/
inductive DBEvent where
  | acquire
  | readRow (resultId : Nat)
  | release
  | sleepEv (d : Nat)
  | insertRow (entryId fileId searchVal : PyVal)
  | qput (resultId : Nat)
  | qtake (resultId : Nat)
deriving DecidableEq, Repr

/-- Sleep contribution of one event. -/
def DBEvent.sleepAmt : DBEvent → Nat
  | .sleepEv d => d
  | _ => 0

/-- Whether an event is a read of the result store. -/
def DBEvent.isRead : DBEvent → Bool
  | .readRow _ => true
  | _ => false

/-- Whether an event writes the result store. -/
def DBEvent.isStoreWrite : DBEvent → Bool
  | .insertRow _ _ _ => true
  | _ => false

/-- Total time slept along a trace. -/
def sleepTime (tr : List DBEvent) : Nat := (tr.map DBEvent.sleepAmt).sum

/-- Number of result-store reads along a trace. -/
def readsIn (tr : List DBEvent) : Nat := tr.countP (fun e => e.isRead)

/-- Number of result-store writes along a trace. -/
def writesIn (tr : List DBEvent) : Nat := tr.countP (fun e => e.isStoreWrite)

/-- Connection discipline of a trace: every acquire is immediately followed
by a single read and then a release, so a connection is never held across a
sleep or any other event; a release never appears without its acquire. -/
def connSafe : List DBEvent → Bool
  | [] => true
  | DBEvent.acquire :: rest =>
    match rest with
    | DBEvent.readRow _ :: DBEvent.release :: es => connSafe es
    | _ => false
  | DBEvent.release :: _ => false
  | _ :: es => connSafe es

/-- List-level prefix test used to embed the Python substring test. -/
def leadsWith : List Char → List Char → Bool
  | [], _ => true
  | _ :: _, [] => false
  | a :: as, b :: bs => a == b && leadsWith as bs

/-- List-level substring test. -/
def hasSubList (p : List Char) : List Char → Bool
  | [] => leadsWith p []
  | b :: bs => leadsWith p (b :: bs) || hasSubList p bs

/-- Embeds the Python test p in s on strings. -/
def strHasSub (p s : String) : Bool := hasSubList p.toList s.toList

/-- The message of the NameError raised when the except clause of
poll_database evaluates the unbound name PoolError (its import, utility.py
line 17, is commented out). -/
def nameErrorPoolError : String := "NameError: name PoolError is not defined"

/-- The message of the NameError raised when process_row evaluates the
unbound name global_connection_pool (its creation, utility.py lines 18 to
26, is commented out). -/
def nameErrorGlobalPool : String := "NameError: name global_connection_pool is not defined"

/-- The outer deadline (seconds) wrapped around poll_database by
asyncio.wait_for in wait_for_completion (utility.py line 119). -/
def waitDeadline : Nat := 1800

/-- The fixed inter-poll sleep (seconds) of poll_database (line 108). -/
def pollSleep : Nat := 5

/-- Embedding of get_task_status (utility.py lines 68 to 85): acquire a
connection from the pool, run the read-only SELECT of completeTime,
EntryID, ImageUrl, ImageDesc for the given ResultID, fetch one row (none
when no row matches), and close the connection.  When get_connection
raises a PoolError the exception propagates to the caller and no store
access happens. -/
def get_task_status (db : DBFun) (poolc : PoolH) (t : Nat) (task_id : Nat) :
    Except String (Option TrackRow) × List DBEvent :=
  match poolc t with
  | .poolErr msg => (.error msg, [])
  | .ok => (.ok (db t task_id), [.acquire, .readRow task_id, .release])

/-- Result of a completion wait.  triple is the returned
(EntryID, ImageUrl, ImageDesc); sentinel is the (None, None, None) returned
by wait_for_completion when the 1800-second deadline fires; raised means an
exception escaped; blocked means the consumer is stuck in queue.get() on an
empty queue with no producers; noFuel is the model artefact of running out
of recursion fuel (the loop is still running). -/
inductive WaitOutcome where
  | triple (e u d : PyVal)
  | sentinel
  | raised (msg : String)
  | blocked
  | noFuel
deriving DecidableEq, Repr

/-- Prepend events to the trace of an outcome-trace pair. -/
def withTr (pre : List DBEvent) (p : WaitOutcome × List DBEvent) :
    WaitOutcome × List DBEvent :=
  (p.1, pre ++ p.2)

mutual

/-- Embedding of poll_database, the inner loop of wait_for_completion
(utility.py lines 98 to 115), together with the cancellation performed by
the surrounding asyncio.wait_for at the deadline.  At each poll time t: if
the deadline has been reached the wait_for cancellation yields the
sentinel; otherwise run get_task_status.  On a row whose completeTime is
truthy, return its (EntryID, ImageUrl, ImageDesc).  On no row or a falsy
completeTime, sleep 5 and poll again.  When get_task_status raises: the
except clause evaluates the name PoolError; with the name unbound
(glob = false, the module as shipped) this raises NameError, which
asyncio.wait_for re-raises (it only converts TimeoutError); with the name
bound (glob = true) a message containing pool exhausted makes the handler
put (result_id, db_pool) on the queue and return process_queued_item,
while any other message is re-raised.  Nested waits installed by
process_queued_item use min of the ambient deadline and t + 1800, which
under the top-level call equals the ambient deadline, so it is threaded
through unchanged.  fuel bounds the recursion depth; the poll loop itself
needs at most one unit per poll, so the base case still applies the
deadline. -/
def pollDatabase (glob : Bool) (rid : Nat) (db : DBFun) (ph : PoolH)
    (q : List QItem) (t deadline : Nat) (fuel : Nat) :
    WaitOutcome × List DBEvent :=
  match fuel with
  | 0 => if deadline ≤ t then (.sentinel, []) else (.noFuel, [])
  | f + 1 =>
    if deadline ≤ t then (.sentinel, [])
    else
      match get_task_status db ph t rid with
      | (.error msg, tr) =>
        if glob then
          if strHasSub "pool exhausted" msg then
            withTr (tr ++ [DBEvent.qput rid])
              (process_queued_item glob rid db (q ++ [(rid, ph)]) t deadline f)
          else (.raised msg, tr)
        else (.raised nameErrorPoolError, tr)
      | (.ok r, tr) =>
        match r with
        | some row =>
          if row.completeTime.truthy then
            (.triple row.entryId row.imageUrl row.imageDesc, tr)
          else
            withTr (tr ++ [DBEvent.sleepEv pollSleep])
              (pollDatabase glob rid db ph q (t + pollSleep) deadline f)
        | none =>
          withTr (tr ++ [DBEvent.sleepEv pollSleep])
            (pollDatabase glob rid db ph q (t + pollSleep) deadline f)

/-- Embedding of process_queued_item (utility.py lines 87 to 95): take the
head of the queue; if its result_id is the one waited for, call
wait_for_completion with the carried pool handle (whose own wait_for
installs deadline t + 1800, so the binding deadline is the min with the
ambient one); otherwise put the item back at the tail and take again.  On
an empty queue, queue.get() blocks; with a single consumer and no
producers it blocks forever. -/
def process_queued_item (glob : Bool) (rid : Nat) (db : DBFun)
    (q : List QItem) (t deadline : Nat) (fuel : Nat) :
    WaitOutcome × List DBEvent :=
  match fuel with
  | 0 => if deadline ≤ t then (.sentinel, []) else (.noFuel, [])
  | f + 1 =>
    match q with
    | [] => (.blocked, [])
    | item :: rest =>
      if item.1 = rid then
        withTr [DBEvent.qtake item.1]
          (pollDatabase glob rid db item.2 rest t
            (min deadline (t + waitDeadline)) f)
      else
        withTr [DBEvent.qtake item.1, DBEvent.qput item.1]
          (process_queued_item glob rid db (rest ++ [item]) t deadline f)

end

/-- Fuel used by the top-level wait: the poll loop makes at most
1800 / 5 = 360 polls before the deadline, so 4000 units are ample for every
run that does not cycle through the overflow hand-off without advancing
time. -/
def waitFuel : Nat := 4000

/-- Embedding of wait_for_completion (utility.py lines 97 to 123): run
poll_database from time 0 under the 1800-second asyncio.wait_for; on
TimeoutError return (None, None, None), i.e. the sentinel. -/
def wait_for_completion (glob : Bool) (rid : Nat) (db : DBFun) (ph : PoolH)
    (q : List QItem) : WaitOutcome × List DBEvent :=
  pollDatabase glob rid db ph q 0 waitDeadline waitFuel

/-- A poll response of the remote service: its status string, and an opaque
tag standing for the rest of the JSON body. -/
structure PollResp where
  status : String
  body : Nat
deriving DecidableEq, Repr

/-- Result of poll_task_status: the whole response data on Completed, the
error dict on Failed or Error, the timeout error dict once the ceiling is
exceeded, or the fuel artefact. -/
inductive PollOutcome where
  | done (r : PollResp)
  | failedResult
  | timedOut
  | fuelOut
deriving DecidableEq, Repr

/-- One loop of poll_task_status (utility.py lines 44 to 66) starting at
iteration k: first check whether elapsed time (k polls at interval seconds
each) strictly exceeds the ceiling and if so return the timeout error;
otherwise fetch response k; on status Completed return the data, on Failed
or Error return the error result, otherwise sleep interval and repeat. -/
def pollRemoteFrom (resps : Nat → PollResp) (interval ceiling : Nat) :
    Nat → Nat → PollOutcome
  | _, 0 => .fuelOut
  | k, f + 1 =>
    if ceiling < k * interval then .timedOut
    else
      let r := resps k
      if r.status = "Completed" then .done r
      else if r.status = "Failed" ∨ r.status = "Error" then .failedResult
      else pollRemoteFrom resps interval ceiling (k + 1) f

/-- Embedding of poll_task_status with its default timeout of 5000: polls
the remote service from iteration 0.  With a positive interval the loop
runs at most 5002 iterations before the ceiling check fires, so the fuel
5002 is never the reason a run ends. -/
def poll_task_status (resps : Nat → PollResp) (interval : Nat) : PollOutcome :=
  pollRemoteFrom resps interval 5000 0 5002

/-- The create response as used by process_row: task_id is
create_response.get, so a missing key is None. -/
structure CreateResp where
  task_id : PyVal
deriving DecidableEq, Repr

/-- Embedding of create_image_task (utility.py lines 28 to 41): POST the
dataset_split payload and return the parsed JSON.  The except clause logs
and re-raises, so the outcome of the call (a response, or a raised
exception with its message) passes through unchanged; there is no retry. -/
def create_image_task (_payload : List String)
    (outcome : Except String CreateResp) : Except String CreateResp :=
  outcome

/-- A submitted row as read by process_row via row.get. -/
structure SubmittedItem where
  brandValue : PyVal
  searchValue : PyVal
  absoluteRowIndex : PyVal
deriving DecidableEq, Repr

/-- The ordered payload built by process_row (line 167). -/
def dataset_split (row : SubmittedItem) (uniqueid : PyVal) : List String :=
  [pyStr row.brandValue, pyStr row.searchValue,
    pyStr row.absoluteRowIndex, pyStr uniqueid]

/-- The dict returned by process_row: either the error shape with an error
message, or the success shape carrying result.url; both echo
absoluteRowIndex and originalSearchValue. -/
structure RowResult where
  error : Option String
  result_url : Option PyVal
  absoluteRowIndex : PyVal
  originalSearchValue : PyVal
deriving DecidableEq, Repr

/-- Outcome of process_row: ret is a returned dict; hung means the call
never returns (its wait blocked); noFuel is the fuel artefact. -/
inductive RowOutcome where
  | ret (r : RowResult)
  | hung
  | noFuel
deriving DecidableEq, Repr

/-- The translation process_row applies to the value returned by
wait_for_completion (utility.py lines 203 to 220): the success dict with
result.url only when all three returned fields are not None; the
no-completion error dict otherwise - the sentinel (None, None, None) takes
that same branch; an exception raised by the wait falls to the except
clause, which returns the error dict with the exception text.  a and s are
the echoed absoluteRowIndex and searchValue, ins the INSERT event already
performed. -/
def rowFromWait (a s : PyVal) (ins : List DBEvent) :
    WaitOutcome × List DBEvent → RowOutcome × List DBEvent
  | (.triple e u d, tr) =>
    if e ≠ PyVal.none ∧ u ≠ PyVal.none ∧ d ≠ PyVal.none then
      (.ret ⟨none, some u, a, s⟩, ins ++ tr)
    else
      (.ret ⟨some "Task did not complete successfully.", none, a, s⟩, ins ++ tr)
  | (.sentinel, tr) =>
    (.ret ⟨some "Task did not complete successfully.", none, a, s⟩, ins ++ tr)
  | (.raised msg, tr) => (.ret ⟨some msg, none, a, s⟩, ins ++ tr)
  | (.noFuel, tr) => (.noFuel, ins ++ tr)
  | (.blocked, tr) => (.hung, ins ++ tr)

/-- Embedding of process_row (utility.py lines 159 to 234).  The
collaborators are passed as parameters: the outcome of the remote create
call, the outcome of the INSERT (the generated ResultID as
cursor.lastrowid, or a raised exception), and the datastore and pool
behaviour seen by the wait.  Steps, in source order: read absoluteRowIndex
and searchValue from the row; call create_image_task (a raised exception
falls to the except clause, which returns the error dict); evaluate
global_connection_pool - unbound in the module as shipped
(poolBound = false), in which case the resulting NameError is caught by
the except clause; otherwise run the INSERT; then, if the task_id from the
create response is truthy, call wait_for_completion with a fresh empty
queue and the module pool and translate its value through rowFromWait; a
truthy-false task_id yields the failed-to-start error dict without any
wait.  Every dict carries absoluteRowIndex and originalSearchValue echoed
from the input.  The second component collects the INSERT event and the
trace of the wait. -/
def process_row (poolBound perrBound : Bool)
    (createOutcome : Except String CreateResp)
    (insertOutcome : Except String Nat) (db : DBFun) (ph : PoolH)
    (row : SubmittedItem) (uniqueid : PyVal) :
    RowOutcome × List DBEvent :=
  match create_image_task (dataset_split row uniqueid) createOutcome with
  | .error msg =>
    (.ret ⟨some msg, none, row.absoluteRowIndex, row.searchValue⟩, [])
  | .ok resp =>
    if poolBound then
      match insertOutcome with
      | .error msg =>
        (.ret ⟨some msg, none, row.absoluteRowIndex, row.searchValue⟩, [])
      | .ok result_id =>
        if resp.task_id.truthy then
          rowFromWait row.absoluteRowIndex row.searchValue
            [DBEvent.insertRow row.absoluteRowIndex uniqueid row.searchValue]
            (wait_for_completion perrBound result_id db ph [])
        else
          (.ret ⟨some "Failed to start task.", none, row.absoluteRowIndex,
            row.searchValue⟩,
            [DBEvent.insertRow row.absoluteRowIndex uniqueid row.searchValue])
    else
      (.ret ⟨some nameErrorGlobalPool, none, row.absoluteRowIndex,
        row.searchValue⟩, [])

theorem withTr_fst (pre : List DBEvent) (p : WaitOutcome × List DBEvent) :
    (withTr pre p).1 = p.1 := rfl

theorem sleepTime_append (l1 l2 : List DBEvent) :
    sleepTime (l1 ++ l2) = sleepTime l1 + sleepTime l2 := by
  simp [sleepTime]

theorem readsIn_append (l1 l2 : List DBEvent) :
    readsIn (l1 ++ l2) = readsIn l1 + readsIn l2 := by
  simp [readsIn, List.countP_append]

theorem writesIn_append (l1 l2 : List DBEvent) :
    writesIn (l1 ++ l2) = writesIn l1 + writesIn l2 := by
  simp [writesIn, List.countP_append]

/-- While the pool always yields a connection and the row for rid never has
a truthy completeTime, poll_database runs one read block per poll time
(multiples of 5) and the wait ends in the sentinel exactly when the
deadline 1800 is reached. -/
theorem pollDatabase_incomplete (glob : Bool) (rid : Nat) (db : DBFun)
    (ph : PoolH)
    (hok : ∀ u, ph u = ConnOutcome.ok)
    (hinc : ∀ u row, db u rid = some row → row.completeTime.truthy = false) :
    ∀ (fuel t : Nat) (q : List QItem), t % 5 = 0 → t ≤ 1800 →
      1800 ≤ t + 5 * fuel →
      ∃ tr, pollDatabase glob rid db ph q t 1800 fuel
          = (WaitOutcome.sentinel, tr)
        ∧ sleepTime tr = 1800 - t ∧ readsIn tr = (1800 - t) / 5 := by
  intro fuel
  induction fuel with
  | zero =>
    intro t q h5 hle hge
    have ht : t = 1800 := by omega
    subst ht
    exact ⟨[], by simp [pollDatabase], by simp [sleepTime], by simp [readsIn]⟩
  | succ f ih =>
    intro t q h5 hle hge
    by_cases hd : 1800 ≤ t
    · have ht : t = 1800 := by omega
      subst ht
      exact ⟨[], by simp [pollDatabase], by simp [sleepTime], by simp [readsIn]⟩
    · have h1795 : t + 5 ≤ 1800 := by omega
      obtain ⟨tr, htr, hs, hr⟩ := ih (t + 5) q (by omega) h1795 (by omega)
      cases hrow : db t rid with
      | none =>
        refine ⟨[DBEvent.acquire, DBEvent.readRow rid, DBEvent.release,
          DBEvent.sleepEv 5] ++ tr, ?_, ?_, ?_⟩
        · simp [pollDatabase, get_task_status, hok t, hrow, hd, withTr,
            pollSleep, htr]
        · rw [sleepTime_append, hs]
          simp [sleepTime, DBEvent.sleepAmt]
          omega
        · rw [readsIn_append, hr]
          simp [readsIn, DBEvent.isRead]
          omega
      | some row =>
        refine ⟨[DBEvent.acquire, DBEvent.readRow rid, DBEvent.release,
          DBEvent.sleepEv 5] ++ tr, ?_, ?_, ?_⟩
        · simp [pollDatabase, get_task_status, hok t, hrow, hd, withTr,
            pollSleep, htr, hinc t row hrow]
        · rw [sleepTime_append, hs]
          simp [sleepTime, DBEvent.sleepAmt]
          omega
        · rw [readsIn_append, hr]
          simp [readsIn, DBEvent.isRead]
          omega

/-- With the module as shipped (the name PoolError unbound), poll_database
never exhausts its fuel nor blocks, provided the fuel covers the polls left
before the deadline: every run ends in the triple, the sentinel, or a
raised exception. -/
theorem pollDatabase_no_stall (rid : Nat) (db : DBFun) (ph : PoolH) :
    ∀ (fuel t d : Nat) (q : List QItem), d ≤ t + 5 * fuel →
      (pollDatabase false rid db ph q t d fuel).1 ≠ WaitOutcome.noFuel
      ∧ (pollDatabase false rid db ph q t d fuel).1 ≠ WaitOutcome.blocked := by
  intro fuel
  induction fuel with
  | zero =>
    intro t d q hge
    have hd : d ≤ t := by omega
    simp [pollDatabase, hd]
  | succ f ih =>
    intro t d q hge
    by_cases hd : d ≤ t
    · simp [pollDatabase, hd]
    · cases hph : ph t with
      | poolErr msg =>
        simp [pollDatabase, get_task_status, hph, hd]
      | ok =>
        cases hrow : db t rid with
        | none =>
          have := ih (t + 5) d q (by omega)
          simpa [pollDatabase, get_task_status, hph, hrow, hd, withTr,
            pollSleep] using this
        | some row =>
          cases htru : row.completeTime.truthy with
          | true =>
            simp [pollDatabase, get_task_status, hph, hrow, hd, htru]
          | false =>
            have := ih (t + 5) d q (by omega)
            simpa [pollDatabase, get_task_status, hph, hrow, hd, htru,
              withTr, pollSleep] using this

/-- C2: for every wait in which the tracking row's completeTime never
becomes non-null (truthy), wait_for_completion returns the sentinel
(None, None, None): it does not raise and does not block, it performs a
read at every 5-unit poll (360 reads), and the total slept time is exactly
the 1800-unit outer deadline, so the sentinel is never returned earlier. -/
theorem C2_wait_deadline_sentinel (glob : Bool) (rid : Nat) (db : DBFun)
    (ph : PoolH) (q : List QItem)
    (hok : ∀ u, ph u = ConnOutcome.ok)
    (hinc : ∀ u row, db u rid = some row → row.completeTime.truthy = false) :
    ∃ tr, wait_for_completion glob rid db ph q = (WaitOutcome.sentinel, tr)
      ∧ sleepTime tr = 1800 ∧ readsIn tr = 360 := by
  have h := pollDatabase_incomplete glob rid db ph hok hinc waitFuel 0 q
    (by norm_num) (by norm_num) (by norm_num [waitFuel])
  simpa [wait_for_completion, waitDeadline, waitFuel] using h

theorem C2_wait_deadline_sentinel_witness :
    ∃ tr, wait_for_completion false 7 (fun _ _ => none)
        (fun _ => ConnOutcome.ok) [] = (WaitOutcome.sentinel, tr)
      ∧ sleepTime tr = 1800 ∧ readsIn tr = 360 :=
  C2_wait_deadline_sentinel false 7 (fun _ _ => none) (fun _ => ConnOutcome.ok)
    [] (fun _ => rfl) (fun _ _ h => by cases h)

/-- C9: a wait in which, at every poll, either no row exists for rid or the
row's completeTime is falsy (None, 0 or the empty string) keeps polling
(360 reads, one per 5-unit interval), never raises, and ends only via the
1800-unit deadline with the sentinel (None, None, None). -/
theorem C9_absent_or_falsy_keeps_polling (glob : Bool) (rid : Nat)
    (db : DBFun) (ph : PoolH) (q : List QItem)
    (hok : ∀ u, ph u = ConnOutcome.ok)
    (habs : ∀ u, db u rid = none ∨ ∃ row, db u rid = some row ∧
      (row.completeTime = PyVal.none ∨ row.completeTime = PyVal.int 0
        ∨ row.completeTime = PyVal.str "")) :
    ∃ tr, wait_for_completion glob rid db ph q = (WaitOutcome.sentinel, tr)
      ∧ sleepTime tr = 1800 ∧ readsIn tr = 360 := by
  have hinc : ∀ u row, db u rid = some row →
      row.completeTime.truthy = false := by
    intro u row h
    rcases habs u with h0 | ⟨row', h1, h2⟩
    · rw [h0] at h
      cases h
    · rw [h1] at h
      injection h with h
      subst h
      rcases h2 with h2 | h2 | h2 <;> simp [PyVal.truthy, h2]
  have h := pollDatabase_incomplete glob rid db ph hok hinc waitFuel 0 q
    (by norm_num) (by norm_num) (by norm_num [waitFuel])
  simpa [wait_for_completion, waitDeadline, waitFuel] using h

theorem C9_absent_or_falsy_keeps_polling_witness :
    ∃ tr, wait_for_completion false 9
        (fun u _ => if u < 900 then none
          else some ⟨PyVal.int 0, PyVal.int 1, PyVal.str "u", PyVal.str "d"⟩)
        (fun _ => ConnOutcome.ok) [] = (WaitOutcome.sentinel, tr)
      ∧ sleepTime tr = 1800 ∧ readsIn tr = 360 :=
  C9_absent_or_falsy_keeps_polling false 9 _ _ [] (fun _ => rfl)
    (fun u => by
      by_cases h : u < 900
      · exact Or.inl (by simp [h])
      · exact Or.inr ⟨⟨PyVal.int 0, PyVal.int 1, PyVal.str "u", PyVal.str "d"⟩,
          by simp [h], Or.inr (Or.inl rfl)⟩)

/-- C1: for every SubmittedItem and every behaviour of the collaborators
(create call, insert, datastore, pool), process_row - with the name
PoolError unbound as in the module as shipped, and whether or not the
global pool is bound - returns a result dict whose absoluteRowIndex and
originalSearchValue echo the input, on the success path and on every
failure path; no exception escapes and the call always returns. -/
theorem C1_process_row_always_returns_echo (pb : Bool)
    (co : Except String CreateResp) (io : Except String Nat)
    (dbf : DBFun) (phf : PoolH)
    (row : SubmittedItem) (uniqueid : PyVal) :
    ∃ r tr, process_row pb false co io dbf phf row uniqueid
        = (RowOutcome.ret r, tr)
      ∧ r.absoluteRowIndex = row.absoluteRowIndex
      ∧ r.originalSearchValue = row.searchValue := by
  cases co with
  | error msg => exact ⟨_, _, rfl, rfl, rfl⟩
  | ok resp =>
    cases pb with
    | false => exact ⟨_, _, rfl, rfl, rfl⟩
    | true =>
      cases io with
      | error msg => exact ⟨_, _, rfl, rfl, rfl⟩
      | ok result_id =>
        cases htid : resp.task_id.truthy with
        | false =>
          refine ⟨⟨some "Failed to start task.", none, row.absoluteRowIndex,
            row.searchValue⟩,
            [DBEvent.insertRow row.absoluteRowIndex uniqueid row.searchValue],
            ?_, rfl, rfl⟩
          simp [process_row, create_image_task, htid]
        | true =>
          have hns := pollDatabase_no_stall result_id dbf phf waitFuel 0
            waitDeadline [] (by norm_num [waitFuel, waitDeadline])
          rcases hw : wait_for_completion false result_id dbf phf []
            with ⟨o, tr⟩
          have hw2 : pollDatabase false result_id dbf phf [] 0 waitDeadline
              waitFuel = (o, tr) := hw
          rw [hw2] at hns
          cases o with
          | triple e u d =>
            by_cases hch : e ≠ PyVal.none ∧ u ≠ PyVal.none ∧ d ≠ PyVal.none
            · refine ⟨⟨none, some u, row.absoluteRowIndex,
                row.searchValue⟩, DBEvent.insertRow row.absoluteRowIndex
                  uniqueid row.searchValue :: tr, ?_, rfl, rfl⟩
              simp [process_row, create_image_task, htid, hw, rowFromWait,
                hch]
            · refine ⟨⟨some "Task did not complete successfully.", none,
                row.absoluteRowIndex, row.searchValue⟩,
                DBEvent.insertRow row.absoluteRowIndex uniqueid
                  row.searchValue :: tr, ?_, rfl, rfl⟩
              simp [process_row, create_image_task, htid, hw, rowFromWait,
                hch]
          | sentinel =>
            refine ⟨⟨some "Task did not complete successfully.", none,
              row.absoluteRowIndex, row.searchValue⟩,
              DBEvent.insertRow row.absoluteRowIndex uniqueid
                row.searchValue :: tr, ?_, rfl, rfl⟩
            simp [process_row, create_image_task, htid, hw, rowFromWait]
          | raised msg =>
            refine ⟨⟨some msg, none, row.absoluteRowIndex,
              row.searchValue⟩,
              DBEvent.insertRow row.absoluteRowIndex uniqueid
                row.searchValue :: tr, ?_, rfl, rfl⟩
            simp [process_row, create_image_task, htid, hw, rowFromWait]
          | noFuel => exact absurd rfl hns.1
          | blocked => exact absurd rfl hns.2

/-- C4: whenever the remote create call raises, process_row returns the
error dict echoing the row fields, and its event trace is empty: in
particular no INSERT of a tracking row is executed, so the result store is
untouched.  This holds for every binding of the two module globals. -/
theorem C4_create_failure_no_insert (pb pe : Bool)
    (co : Except String CreateResp) (io : Except String Nat)
    (dbf : DBFun) (phf : PoolH)
    (row : SubmittedItem) (uniqueid : PyVal) (msg : String)
    (hc : co = Except.error msg) :
    process_row pb pe co io dbf phf row uniqueid
      = (RowOutcome.ret ⟨some msg, none, row.absoluteRowIndex,
          row.searchValue⟩, [])
      ∧ writesIn (process_row pb pe co io dbf phf row uniqueid).2 = 0 := by
  cases hc
  exact ⟨rfl, rfl⟩

theorem C4_create_failure_no_insert_witness :
    process_row true false (Except.error "connect timeout") (Except.ok 42)
        (fun _ _ => none) (fun _ => ConnOutcome.ok)
        ⟨PyVal.str "Nike", PyVal.str "red shoes", PyVal.int 7⟩
        (PyVal.str "batch1")
      = (RowOutcome.ret ⟨some "connect timeout", none, PyVal.int 7,
          PyVal.str "red shoes"⟩, [])
      ∧ writesIn (process_row true false (Except.error "connect timeout")
        (Except.ok 42) (fun _ _ => none) (fun _ => ConnOutcome.ok)
        ⟨PyVal.str "Nike", PyVal.str "red shoes", PyVal.int 7⟩
        (PyVal.str "batch1")).2 = 0 :=
  C4_create_failure_no_insert true false _ _ _ _ _ _ "connect timeout" rfl

/-- C5, as the code behaves: with global_connection_pool unbound (its
creation, lines 18 to 26, is commented out), a row whose create call
succeeds without a task_id makes line 171 raise NameError before the
task_id check, so the except clause returns the NameError message, not
"Failed to start task.": the claimed error text is produced only when the
global pool name is bound.  In both cases wait_for_completion is never
invoked (no pool acquire and no read in the trace). -/
theorem C5_no_taskid_behaviour :
    process_row false false (Except.ok ⟨PyVal.none⟩) (Except.ok 42)
        (fun _ _ => none) (fun _ => ConnOutcome.ok)
        ⟨PyVal.str "Nike", PyVal.str "red shoes", PyVal.int 7⟩
        (PyVal.str "batch1")
      = (RowOutcome.ret ⟨some nameErrorGlobalPool, none, PyVal.int 7,
          PyVal.str "red shoes"⟩, [])
    ∧ process_row true false (Except.ok ⟨PyVal.none⟩) (Except.ok 42)
        (fun _ _ => none) (fun _ => ConnOutcome.ok)
        ⟨PyVal.str "Nike", PyVal.str "red shoes", PyVal.int 7⟩
        (PyVal.str "batch1")
      = (RowOutcome.ret ⟨some "Failed to start task.", none, PyVal.int 7,
          PyVal.str "red shoes"⟩,
          [DBEvent.insertRow (PyVal.int 7) (PyVal.str "batch1")
            (PyVal.str "red shoes")])
    ∧ nameErrorGlobalPool ≠ "Failed to start task." := by
  refine ⟨rfl, rfl, ?_⟩
  decide

/-- The pool behaviour of the C3 scenario: get_connection raises
PoolError with the pool-exhausted message at every acquisition. -/
def phExhausted : PoolH := fun _ => ConnOutcome.poolErr "pool exhausted"

/-- C3, as the code behaves: when acquisition raises the pool-exhaustion
PoolError, the except clause of poll_database evaluates the unbound name
PoolError (its import, line 17, is commented out) and therefore raises
NameError, which asyncio.wait_for re-raises, so the exception escapes
wait_for_completion to its caller instead of being recovered.  The second
conjunct shows the handler text itself: with the name bound, the same
acquisition failure puts (result_id, pool) on the overflow queue and hands
control to process_queued_item. -/
theorem C3_pool_exhaustion_escapes :
    wait_for_completion false 5 (fun _ _ => none) phExhausted []
      = (WaitOutcome.raised nameErrorPoolError, [])
    ∧ ∀ fuel : Nat,
      pollDatabase true 5 (fun _ _ => none) phExhausted [] 0 1800 (fuel + 1)
        = withTr [DBEvent.qput 5]
            (process_queued_item true 5 (fun _ _ => none)
              [(5, phExhausted)] 0 1800 fuel) := by
  constructor
  · rfl
  · intro fuel
    rfl

/-- Rotating the overflow queue: when the first item carrying rid sits at
index i, the consumer takes and re-puts the i mismatched items ahead of
it, then takes the matching item and proceeds into the waiter with the
carried pool handle and the remaining queue, one item shorter.  So the
match is reached after i + 1 dequeues. -/
theorem rotate_to_match (glob : Bool) (rid : Nat) (db : DBFun)
    (t dl : Nat) :
    ∀ (i : Nat) (q : List QItem) (hi : i < q.length),
      (∀ j (hj : j < i), (q.get ⟨j, lt_trans hj hi⟩).1 ≠ rid) →
      (q.get ⟨i, hi⟩).1 = rid →
      ∀ f, ∃ q2, q2.length = q.length - 1 ∧
        (process_queued_item glob rid db q t dl (i + 1 + f)).1
          = (pollDatabase glob rid db (q.get ⟨i, hi⟩).2 q2 t
              (min dl (t + waitDeadline)) f).1 := by
  intro i
  induction i with
  | zero =>
    intro q hi hfirst hmatch f
    cases q with
    | nil => simp at hi
    | cons x rest =>
      refine ⟨rest, by simp, ?_⟩
      have h1 : 0 + 1 + f = f + 1 := by omega
      rw [h1]
      simp only [List.get] at hmatch
      simp [process_queued_item, hmatch, withTr, List.get]
  | succ i ih =>
    intro q hi hfirst hmatch f
    cases q with
    | nil => simp at hi
    | cons x rest =>
      have hx : x.1 ≠ rid := by
        have h0 := hfirst 0 (Nat.succ_pos i)
        simpa [List.get] using h0
      have hilen : i < rest.length := by
        simp only [List.length_cons] at hi
        omega
      have hi2 : i < (rest ++ [x]).length := by
        simp
        omega
      have hget : (rest ++ [x]).get ⟨i, hi2⟩ = (x :: rest).get ⟨i + 1, hi⟩ := by
        rw [List.get_append i hilen]
        rfl
      have hfirst2 : ∀ j (hj : j < i),
          ((rest ++ [x]).get ⟨j, lt_trans hj hi2⟩).1 ≠ rid := by
        intro j hj
        have hjlen : j < rest.length := by omega
        rw [List.get_append j hjlen]
        have hh := hfirst (j + 1) (Nat.succ_lt_succ hj)
        simpa [List.get] using hh
      have hmatch2 : ((rest ++ [x]).get ⟨i, hi2⟩).1 = rid := by
        rw [hget]
        exact hmatch
      obtain ⟨q2, hlen, heq⟩ := ih (rest ++ [x]) hi2 hfirst2 hmatch2 f
      refine ⟨q2, ?_, ?_⟩
      · simp only [List.length_append, List.length_cons,
          List.length_nil] at hlen ⊢
        omega
      · have h1 : i + 1 + 1 + f = (i + 1 + f) + 1 := by omega
        rw [h1]
        have hstep : (process_queued_item glob rid db (x :: rest) t dl
            ((i + 1 + f) + 1)).1
            = (process_queued_item glob rid db (rest ++ [x]) t dl
              (i + 1 + f)).1 := by
          simp [process_queued_item, hx, withTr]
        rw [hstep, heq, hget]

/-- A queue with no item for rid never matches: each consumer step takes
the head and re-puts it at the tail, so on a nonempty queue every amount
of fuel ends in the noFuel artefact - the loop never returns a value. -/
theorem consume_no_match (glob : Bool) (rid : Nat) (db : DBFun)
    (t dl : Nat) (ht : t < dl) :
    ∀ (fuel : Nat) (q : List QItem), (∀ it ∈ q, it.1 ≠ rid) → q ≠ [] →
      (process_queued_item glob rid db q t dl fuel).1
        = WaitOutcome.noFuel := by
  intro fuel
  induction fuel with
  | zero =>
    intro q h hne
    have hd : ¬ (dl ≤ t) := by omega
    simp [process_queued_item, hd]
  | succ f ih =>
    intro q h hne
    cases q with
    | nil => exact absurd rfl hne
    | cons x rest =>
      have hx : x.1 ≠ rid := h x (List.mem_cons_self x rest)
      have hstep : (process_queued_item glob rid db (x :: rest) t dl
          (f + 1)).1
          = (process_queued_item glob rid db (rest ++ [x]) t dl f).1 := by
        simp [process_queued_item, hx, withTr]
      rw [hstep]
      refine ih (rest ++ [x]) ?_ (by simp)
      intro it hit
      rcases List.mem_append.mp hit with hmem | hmem
      · exact h it (List.mem_cons_of_mem x hmem)
      · rw [List.mem_singleton.mp hmem]
        exact hx

/-- C6: the overflow consumer pops the head item; on a resultId match it
proceeds into the completion read loop with the carried pool reference
(first conjunct); on a mismatch it re-appends the popped item to the tail
and dequeues again (second conjunct); consequently a wait for a resultId
present anywhere in the queue rotates the matching item to the head,
matches it, and - when the row is complete with a truthy completeTime at
the matched poll - returns its (EntryID, ImageUrl, ImageDesc) triple
(third conjunct). -/
theorem C6_consumer_rotation_completes :
    (∀ (glob : Bool) (rid : Nat) (db : DBFun) (ph : PoolH)
        (rest : List QItem) (t dl f : Nat),
      process_queued_item glob rid db ((rid, ph) :: rest) t dl (f + 1)
        = withTr [DBEvent.qtake rid]
            (pollDatabase glob rid db ph rest t
              (min dl (t + waitDeadline)) f))
    ∧ (∀ (glob : Bool) (rid r : Nat) (db : DBFun) (ph : PoolH)
        (rest : List QItem) (t dl f : Nat), r ≠ rid →
      process_queued_item glob rid db ((r, ph) :: rest) t dl (f + 1)
        = withTr [DBEvent.qtake r, DBEvent.qput r]
            (process_queued_item glob rid db (rest ++ [(r, ph)]) t dl f))
    ∧ (∀ (glob : Bool) (rid : Nat) (db : DBFun) (q : List QItem)
        (t dl i : Nat) (hi : i < q.length) (row : TrackRow) (f : Nat),
      (∀ j (hj : j < i), (q.get ⟨j, lt_trans hj hi⟩).1 ≠ rid) →
      (q.get ⟨i, hi⟩).1 = rid →
      (q.get ⟨i, hi⟩).2 t = ConnOutcome.ok →
      db t rid = some row →
      row.completeTime.truthy = true →
      t < dl →
      (process_queued_item glob rid db q t dl (i + 1 + (f + 1))).1
        = WaitOutcome.triple row.entryId row.imageUrl row.imageDesc) := by
  refine ⟨?_, ?_, ?_⟩
  · intro glob rid db ph rest t dl f
    simp [process_queued_item]
  · intro glob rid r db ph rest t dl f hr
    simp [process_queued_item, hr]
  · intro glob rid db q t dl i hi row f hfirst hmatch hphp hrow hct ht
    obtain ⟨q2, _, heq⟩ := rotate_to_match glob rid db t dl i q hi hfirst
      hmatch (f + 1)
    rw [heq]
    have hnd : ¬ (min dl (t + waitDeadline) ≤ t) := by
      simp only [waitDeadline]
      omega
    simp only [List.get_eq_getElem] at hphp
    simp [pollDatabase, get_task_status, hnd, hphp, hrow, hct]

/-- A pool that always yields a connection, for concrete scenarios. -/
def phOkW : PoolH := fun _ => ConnOutcome.ok

/-- A completed tracking row, for concrete scenarios. -/
def rowDoneW : TrackRow :=
  ⟨PyVal.str "T", PyVal.int 3, PyVal.str "http", PyVal.str "shoe"⟩

/-- A datastore in which every row is already complete. -/
def dbDoneW : DBFun := fun _ _ => some rowDoneW

/-- A datastore with no rows at all. -/
def dbEmptyW : DBFun := fun _ _ => none

theorem C6_consumer_rotation_completes_witness :
    (process_queued_item false 7 dbDoneW [(9, phOkW), (7, phOkW)]
      0 1800 3).1
      = WaitOutcome.triple (PyVal.int 3) (PyVal.str "http")
          (PyVal.str "shoe") :=
  C6_consumer_rotation_completes.2.2 false 7 dbDoneW
    [(9, phOkW), (7, phOkW)] 0 1800 1 (by decide) rowDoneW 0
    (by
      intro j hj
      obtain rfl : j = 0 := by omega
      simp [List.get])
    (by simp [List.get]) rfl rfl (by decide) (by decide)

/-- C10: single consumer, no concurrent producers.  First conjunct: when
the first item carrying the target resultId sits at index i of the queue
(so within at most n dequeues for a queue of n items), the consumer
reaches it after taking and re-putting exactly the i items in front and
hands over to the waiter with the carried pool handle and the n - 1
remaining items.  Second conjunct: when no item of the queue carries the
target, a nonempty queue rotates forever - every amount of fuel ends in
the noFuel artefact, never in a returned value - and an empty queue
returns blocked: queue.get waits forever. -/
theorem C10_consumer_termination :
    (∀ (glob : Bool) (rid : Nat) (db : DBFun) (q : List QItem)
        (t dl i : Nat) (hi : i < q.length),
      (∀ j (hj : j < i), (q.get ⟨j, lt_trans hj hi⟩).1 ≠ rid) →
      (q.get ⟨i, hi⟩).1 = rid →
      ∀ f, ∃ q2, q2.length = q.length - 1 ∧
        (process_queued_item glob rid db q t dl (i + 1 + f)).1
          = (pollDatabase glob rid db (q.get ⟨i, hi⟩).2 q2 t
              (min dl (t + waitDeadline)) f).1)
    ∧ (∀ (glob : Bool) (rid : Nat) (db : DBFun) (q : List QItem)
        (t dl : Nat), t < dl → (∀ it ∈ q, it.1 ≠ rid) →
      (q ≠ [] → ∀ fuel, (process_queued_item glob rid db q t dl fuel).1
          = WaitOutcome.noFuel)
      ∧ (q = [] → ∀ fuel, process_queued_item glob rid db q t dl (fuel + 1)
          = (WaitOutcome.blocked, []))) := by
  constructor
  · intro glob rid db q t dl i hi hfirst hmatch f
    exact rotate_to_match glob rid db t dl i q hi hfirst hmatch f
  · intro glob rid db q t dl ht hno
    constructor
    · intro hne fuel
      exact consume_no_match glob rid db t dl ht fuel q hno hne
    · intro he fuel
      subst he
      rfl

theorem C10_consumer_termination_witness :
    (∃ q2, q2.length = 1 ∧
      (process_queued_item false 7 dbDoneW [(3, phOkW), (7, phOkW)]
        0 1800 2).1
        = (pollDatabase false 7 dbDoneW phOkW q2 0
            (min 1800 (0 + waitDeadline)) 0).1)
    ∧ (process_queued_item false 7 dbDoneW [(3, phOkW)] 0 1800 5).1
        = WaitOutcome.noFuel
    ∧ process_queued_item false 7 dbDoneW [] 0 1800 5
        = (WaitOutcome.blocked, []) :=
  ⟨C10_consumer_termination.1 false 7 dbDoneW [(3, phOkW), (7, phOkW)]
      0 1800 1 (by decide)
      (by
        intro j hj
        obtain rfl : j = 0 := by omega
        simp [List.get])
      (by simp [List.get]) 0,
    (C10_consumer_termination.2 false 7 dbDoneW [(3, phOkW)] 0 1800
      (by decide) (by
        intro it hit
        simp at hit
        simp [hit])).1 (by simp) 5,
    (C10_consumer_termination.2 false 7 dbDoneW [] 0 1800
      (by decide) (by decide)).2 rfl 4⟩

/-- Frame lemma, by mutual induction on the fuel: every trace produced by
the poll loop or by the overflow consumer respects the connection
discipline (acquire, one read, release, never held across any other
event) and contains no write of the result store. -/
theorem frame_all : ∀ fuel : Nat,
    (∀ (glob : Bool) (rid : Nat) (db : DBFun) (ph : PoolH) (q : List QItem)
      (t dl : Nat),
      connSafe (pollDatabase glob rid db ph q t dl fuel).2 = true
      ∧ ∀ e ∈ (pollDatabase glob rid db ph q t dl fuel).2,
        e.isStoreWrite = false)
    ∧ (∀ (glob : Bool) (rid : Nat) (db : DBFun) (q : List QItem)
      (t dl : Nat),
      connSafe (process_queued_item glob rid db q t dl fuel).2 = true
      ∧ ∀ e ∈ (process_queued_item glob rid db q t dl fuel).2,
        e.isStoreWrite = false) := by
  intro fuel
  induction fuel with
  | zero =>
    constructor
    · intro glob rid db ph q t dl
      by_cases hd : dl ≤ t <;>
        simp [pollDatabase, hd, connSafe]
    · intro glob rid db q t dl
      by_cases hd : dl ≤ t <;>
        simp [process_queued_item, hd, connSafe]
  | succ f ih =>
    constructor
    · intro glob rid db ph q t dl
      by_cases hd : dl ≤ t
      · simp [pollDatabase, hd, connSafe]
      · cases hph : ph t with
        | poolErr msg =>
          cases glob with
          | false =>
            simp [pollDatabase, get_task_status, hph, hd, connSafe]
          | true =>
            cases hs : strHasSub "pool exhausted" msg with
            | false =>
              simp [pollDatabase, get_task_status, hph, hd, hs, connSafe]
            | true =>
              have hc := ih.2 true rid db (q ++ [(rid, ph)]) t dl
              have htr : (pollDatabase true rid db ph q t dl (f + 1)).2
                  = DBEvent.qput rid ::
                    (process_queued_item true rid db (q ++ [(rid, ph)])
                      t dl f).2 := by
                simp [pollDatabase, get_task_status, hph, hd, hs, withTr]
              rw [htr]
              constructor
              · simp [connSafe, hc.1]
              · simp only [List.forall_mem_cons]
                exact ⟨rfl, hc.2⟩
        | ok =>
          cases hrow : db t rid with
          | none =>
            have hp := ih.1 glob rid db ph q (t + pollSleep) dl
            have htr : (pollDatabase glob rid db ph q t dl (f + 1)).2
                = DBEvent.acquire :: DBEvent.readRow rid ::
                  DBEvent.release :: DBEvent.sleepEv pollSleep ::
                  (pollDatabase glob rid db ph q (t + pollSleep) dl f).2 := by
              simp [pollDatabase, get_task_status, hph, hrow, hd, withTr]
            rw [htr]
            constructor
            · simp [connSafe, hp.1]
            · simp only [List.forall_mem_cons]
              exact ⟨rfl, rfl, rfl, rfl, hp.2⟩
          | some row =>
            cases htru : row.completeTime.truthy with
            | true =>
              have htr : (pollDatabase glob rid db ph q t dl (f + 1)).2
                  = [DBEvent.acquire, DBEvent.readRow rid,
                    DBEvent.release] := by
                simp [pollDatabase, get_task_status, hph, hrow, hd, htru]
              rw [htr]
              constructor
              · simp [connSafe]
              · simp only [List.forall_mem_cons]
                exact ⟨rfl, rfl, rfl, by simp⟩
            | false =>
              have hp := ih.1 glob rid db ph q (t + pollSleep) dl
              have htr : (pollDatabase glob rid db ph q t dl (f + 1)).2
                  = DBEvent.acquire :: DBEvent.readRow rid ::
                    DBEvent.release :: DBEvent.sleepEv pollSleep ::
                    (pollDatabase glob rid db ph q (t + pollSleep) dl
                      f).2 := by
                simp [pollDatabase, get_task_status, hph, hrow, hd, htru,
                  withTr]
              rw [htr]
              constructor
              · simp [connSafe, hp.1]
              · simp only [List.forall_mem_cons]
                exact ⟨rfl, rfl, rfl, rfl, hp.2⟩
    · intro glob rid db q t dl
      cases q with
      | nil => simp [process_queued_item, connSafe]
      | cons x rest =>
        by_cases hx : x.1 = rid
        · have hp := ih.1 glob rid db x.2 rest t (min dl (t + waitDeadline))
          have htr : (process_queued_item glob rid db (x :: rest) t dl
              (f + 1)).2
              = DBEvent.qtake x.1 ::
                (pollDatabase glob rid db x.2 rest t
                  (min dl (t + waitDeadline)) f).2 := by
            simp [process_queued_item, hx, withTr]
          rw [htr]
          constructor
          · simp [connSafe, hp.1]
          · simp only [List.forall_mem_cons]
            exact ⟨rfl, hp.2⟩
        · have hc := ih.2 glob rid db (rest ++ [x]) t dl
          have htr : (process_queued_item glob rid db (x :: rest) t dl
              (f + 1)).2
              = DBEvent.qtake x.1 :: DBEvent.qput x.1 ::
                (process_queued_item glob rid db (rest ++ [x]) t dl f).2 := by
            simp [process_queued_item, hx, withTr]
          rw [htr]
          constructor
          · simp [connSafe, hc.1]
          · simp only [List.forall_mem_cons]
            exact ⟨rfl, rfl, hc.2⟩

/-- C7: every execution of the completion wait only reads the result
store - its trace contains no store write, so the tracking row is never
mutated by this core after its creation - and a pool connection is
acquired and released around each single read, never held across the
inter-poll sleep or any other event.  Stated for wait_for_completion and
for its loop at every start time, deadline and fuel. -/
theorem C7_wait_reads_only_conn_bracketed (glob : Bool) (rid : Nat)
    (db : DBFun) (ph : PoolH) (q : List QItem) :
    (connSafe (wait_for_completion glob rid db ph q).2 = true
      ∧ writesIn (wait_for_completion glob rid db ph q).2 = 0)
    ∧ ∀ (t dl fuel : Nat),
      connSafe (pollDatabase glob rid db ph q t dl fuel).2 = true
      ∧ writesIn (pollDatabase glob rid db ph q t dl fuel).2 = 0 := by
  have key : ∀ (t dl fuel : Nat),
      connSafe (pollDatabase glob rid db ph q t dl fuel).2 = true
      ∧ writesIn (pollDatabase glob rid db ph q t dl fuel).2 = 0 := by
    intro t dl fuel
    have h := (frame_all fuel).1 glob rid db ph q t dl
    refine ⟨h.1, ?_⟩
    rw [writesIn, List.countP_eq_zero]
    intro e he
    simp [h.2 e he]
  exact ⟨key 0 waitDeadline waitFuel, key⟩

/-- Stepping lemma for the remote poller: a block of m responses that all
carry a nonterminal status and sit within the ceiling is skipped one
iteration (and one interval of elapsed time) at a time. -/
theorem pollRemoteFrom_skip (resps : Nat → PollResp) (interval : Nat) :
    ∀ (m k f : Nat),
      (∀ j, k ≤ j → j < k + m →
        ((resps j).status ≠ "Completed" ∧ (resps j).status ≠ "Failed"
          ∧ (resps j).status ≠ "Error") ∧ j * interval ≤ 5000) →
      pollRemoteFrom resps interval 5000 k (m + f)
        = pollRemoteFrom resps interval 5000 (k + m) f := by
  intro m
  induction m with
  | zero =>
    intro k f _
    simp
  | succ m ih =>
    intro k f h
    have hk := h k (le_refl k) (by omega)
    have h1 : ¬ (5000 < k * interval) := by omega
    have heq : m + 1 + f = (m + f) + 1 := by omega
    rw [heq]
    have hstep : pollRemoteFrom resps interval 5000 k ((m + f) + 1)
        = pollRemoteFrom resps interval 5000 (k + 1) (m + f) := by
      simp [pollRemoteFrom, h1, hk.1.1, hk.1.2.1, hk.1.2.2]
    rw [hstep]
    have hrest := ih (k + 1) f (fun j hj1 hj2 => h j (by omega) (by omega))
    rw [hrest]
    have harith : k + 1 + m = k + (m + 1) := by omega
    rw [harith]

/-- C8: the remote poller scans one response per interval.  When the first
response with a terminal status appears at iteration n within the
5000-second ceiling, poll_task_status returns that response's data if the
status is Completed (first conjunct) and the error result if it is Failed
or Error (second conjunct); when instead iteration n starts strictly past
the ceiling and everything before was nonterminal and within it,
poll_task_status returns the timeout error (third conjunct). -/
theorem C8_remote_poll_outcomes (resps : Nat → PollResp) (interval n : Nat)
    (hI : 0 < interval)
    (hpre : ∀ j, j < n →
      ((resps j).status ≠ "Completed" ∧ (resps j).status ≠ "Failed"
        ∧ (resps j).status ≠ "Error") ∧ j * interval ≤ 5000) :
    (n * interval ≤ 5000 → (resps n).status = "Completed" →
      poll_task_status resps interval = PollOutcome.done (resps n))
    ∧ (n * interval ≤ 5000 →
      ((resps n).status = "Failed" ∨ (resps n).status = "Error") →
      poll_task_status resps interval = PollOutcome.failedResult)
    ∧ (5000 < n * interval →
      poll_task_status resps interval = PollOutcome.timedOut) := by
  have hskip : ∀ f, 5002 = n + f →
      poll_task_status resps interval
        = pollRemoteFrom resps interval 5000 n f := by
    intro f hf
    have := pollRemoteFrom_skip resps interval n 0 f
      (fun j _ hj => hpre j (by omega))
    simpa [poll_task_status, hf] using this
  have hn : n ≤ 5001 := by
    by_contra hbig
    have h5001 := hpre 5001 (by omega)
    have := h5001.2
    have : 5001 ≤ 5001 * interval := Nat.le_mul_of_pos_right 5001 hI
    omega
  obtain ⟨f, hf⟩ : ∃ f, 5002 = n + (f + 1) := ⟨5001 - n, by omega⟩
  refine ⟨?_, ?_, ?_⟩
  · intro hle hst
    have hns : ¬ (5000 < n * interval) := by omega
    rw [hskip (f + 1) hf]
    simp [pollRemoteFrom, hns, hst]
  · intro hle hst
    have hns : ¬ (5000 < n * interval) := by omega
    have hnc : (resps n).status ≠ "Completed" := by
      rcases hst with hst | hst <;> simp [hst]
    rw [hskip (f + 1) hf]
    simp [pollRemoteFrom, hns, hnc, hst]
  · intro hgt
    rw [hskip (f + 1) hf]
    simp [pollRemoteFrom, hgt]

theorem C8_remote_poll_outcomes_witness :
    poll_task_status
        (fun k => if k < 2 then ⟨"Pending", 0⟩ else ⟨"Completed", 9⟩) 60
      = PollOutcome.done ⟨"Completed", 9⟩ :=
  (C8_remote_poll_outcomes
      (fun k => if k < 2 then ⟨"Pending", 0⟩ else ⟨"Completed", 9⟩) 60 2
      (by decide)
      (fun j hj => by
        interval_cases j <;>
          exact ⟨⟨by decide, by decide, by decide⟩, by decide⟩)).1
    (by decide) rfl

end DistroImage
